import Mathlib

/-
  Verification development for the Seymour feedback mixer
  (src/src/seymour.cpp), a multi-input feedback mixer with a
  lookahead safety limiter.

  The per-sample processing pipeline is shallowly embedded over the
  real numbers: `float` arithmetic is modelled as exact real
  arithmetic, `uint32_t` index arithmetic as natural-number arithmetic
  with explicit reduction modulo 2^32 where the source relies on
  unsigned wrap-around, and the flat host bus array / lookahead buffer
  as functions from flat indices to reals.
-/

namespace Seymour

/-! ## Constants (seymour.cpp lines 47-55) -/

/-- `kMaxInputs = 8`. -/
def kMaxInputs : ℕ := 8

/-- `kParamsPerChannel = 7`. -/
def kParamsPerChannel : ℕ := 7

/-- `kNumGlobalParams = 6`. -/
def kNumGlobalParams : ℕ := 6

/-- Limiter threshold: `kLimiterThreshold = 1.0f`. -/
def kLimiterThreshold : ℝ := 1

/-- `kMaxLookaheadSamples = (96000 * 20) / 1000 = 1920`. -/
def kMaxLookaheadSamples : ℕ := (96000 * 20) / 1000

/-! ## Parameter indices (seymour.cpp lines 62-80) -/

def kChParamInput : ℕ := 0
def kChParamFeedback : ℕ := 1
def kChParamFeedbackCV : ℕ := 2
def kChParamFeedbackCVDepth : ℕ := 3
def kChParamPan : ℕ := 4
def kChParamPanCV : ℕ := 5
def kChParamPanCVDepth : ℕ := 6

def kGlobalParamOutputL : ℕ := 0
def kGlobalParamOutputR : ℕ := 1
def kGlobalParamOutputMode : ℕ := 2
def kGlobalParamMasterLevel : ℕ := 3
def kGlobalParamLookahead : ℕ := 4
def kGlobalParamSaturation : ℕ := 5

def kSaturationSoft : ℤ := 0
def kSaturationTube : ℤ := 1
def kSaturationHard : ℤ := 2

/-! ## Data structures (seymour.cpp lines 100-141) -/

/-- `_seymourDTC`: limiter state, lookahead-buffer indices and the
precomputed coefficients.  Indices are `uint32_t` in the source;
reachable values are far below `2^32`, so they are carried as `ℕ`
and the one place where unsigned wrap-around matters (the read-index
subtraction) reduces modulo `2^32` explicitly. -/
structure SeymourDTC where
  envelope : ℝ
  gainReduction : ℝ
  writeIndex : ℕ
  lookaheadSamples : ℕ
  bufferSize : ℕ
  dcBlockerCoeff : ℝ
  envelopeAttack : ℝ
  envelopeRelease : ℝ
  smoothingCoeff : ℝ
  gainSmoothingCoeff : ℝ

/-- Per-channel state: one slot of each of the five per-channel arrays
`feedbackSmoothed`, `panSmoothed`, `feedbackState`, `dcBlockerX1`,
`dcBlockerY1` of `_seymourAlgorithm`. -/
structure ChannelState where
  feedbackSmoothed : ℝ
  panSmoothed : ℝ
  feedbackState : ℝ
  dcBlockerX1 : ℝ
  dcBlockerY1 : ℝ

/-- The zeroed per-channel state written by `construct`
(seymour.cpp lines 489-495). -/
def ChannelState.init : ChannelState :=
  ⟨0, 0, 0, 0, 0⟩

/-- `_seymourAlgorithm`: the instance state.  `v` is the host-supplied
parameter-value array (`int16_t` values, modelled as `ℤ`);
`lookaheadBuffer` is the flat stereo-interleaved DRAM buffer. -/
structure SeymourAlgorithm where
  numInputs : ℕ
  v : ℕ → ℤ
  dtc : SeymourDTC
  lookaheadBuffer : ℕ → ℝ
  channels : List ChannelState
  masterLevelSmoothed : ℝ

/-! ## DSP functions (seymour.cpp lines 184-241) -/

/-- `dcBlock`: `y[n] = x[n] - x[n-1] + R * y[n-1]`; returns
`(output, x1', y1')` where `x1' = input` and `y1' = output`
(seymour.cpp lines 184-189). -/
def dcBlock (input x1 y1 R : ℝ) : ℝ × ℝ × ℝ :=
  let output := input - x1 + R * y1
  (output, input, output)

/-- `equalPowerPan` (seymour.cpp lines 195-200): pan −100..100 mapped
to `p ∈ [0,1]`, angle `p * π/2` (the source literal `1.5707963f` is
`π/2` per its own comment), gains `(cos angle, sin angle)`. -/
noncomputable def equalPowerPan (pan : ℝ) : ℝ × ℝ :=
  let p := (pan + 100) / 200
  let angle := p * (Real.pi / 2)
  (Real.cos angle, Real.sin angle)

/-- `saturateSoft` (seymour.cpp line 206): `tanh x`. -/
noncomputable def saturateSoft (x : ℝ) : ℝ :=
  Real.tanh x

/-- `saturateTube` (seymour.cpp lines 212-218): asymmetric tanh. -/
noncomputable def saturateTube (x : ℝ) : ℝ :=
  if 0 ≤ x then Real.tanh (x * 0.8) * 1.1
  else Real.tanh (x * 1.2) * 0.9

/-- `saturateHard` (seymour.cpp lines 223-229): identity within
±0.8, half-slope knee to ±1, hard clip beyond. -/
noncomputable def saturateHard (x : ℝ) : ℝ :=
  if 1 < x then 1
  else if x < -1 then -1
  else if 0.8 < x then 0.8 + (x - 0.8) * 0.5
  else if x < -0.8 then -0.8 + (x + 0.8) * 0.5
  else x

/-- `saturate` dispatcher (seymour.cpp lines 234-241); unknown modes
fall back to Soft. -/
noncomputable def saturate (x : ℝ) (mode : ℤ) : ℝ :=
  if mode = kSaturationSoft then saturateSoft x
  else if mode = kSaturationTube then saturateTube x
  else if mode = kSaturationHard then saturateHard x
  else saturateSoft x

/-! ## Construction (seymour.cpp lines 454-531) -/

/-- The `_seymourDTC` initialisation performed by `construct`
(seymour.cpp lines 499-524): limiter state zero/one, coefficients
derived from the sample rate, default lookahead 5 ms, buffer size
`kMaxLookaheadSamples`.  The float-to-`uint32_t` cast truncates, hence
the integer floor. -/
noncomputable def constructDTC (sampleRate : ℝ) : SeymourDTC :=
  { envelope := 0
    gainReduction := 1
    writeIndex := 0
    dcBlockerCoeff := 1 - 6.28318 * 5 / sampleRate
    smoothingCoeff := 1 - Real.exp (-6.28318 * 50 / sampleRate)
    envelopeAttack := 1 - Real.exp (-6.28318 * 1000 / sampleRate)
    envelopeRelease := 1 - Real.exp (-6.28318 * 50 / sampleRate)
    gainSmoothingCoeff := 1 - Real.exp (-6.28318 * 30 / sampleRate)
    lookaheadSamples := (⌊sampleRate * 0.005⌋).toNat
    bufferSize := kMaxLookaheadSamples }

/-- `construct` (seymour.cpp lines 454-531): per-channel state zeroed,
master-level smoother at 0.8, lookahead buffer zeroed. -/
noncomputable def construct (numInputs : ℕ) (v : ℕ → ℤ) (sampleRate : ℝ) :
    SeymourAlgorithm :=
  { numInputs := numInputs
    v := v
    dtc := constructDTC sampleRate
    lookaheadBuffer := fun _ => 0
    channels := List.replicate numInputs ChannelState.init
    masterLevelSmoothed := 0.8 }

/-! ## Parameter-changed hook (seymour.cpp lines 552-570) -/

/-- The lookahead recomputation in `parameterChanged`: milliseconds
from the tenth-of-ms parameter value, samples by truncating
`sampleRate * ms / 1000` to `uint32_t`, then clamped to
`[1, bufferSize]` (seymour.cpp lines 559-568). -/
noncomputable def parameterChangedLookahead (sampleRate : ℝ) (vp : ℤ)
    (bufferSize : ℕ) : ℕ :=
  let lookaheadMs : ℝ := (vp : ℝ) / 10
  let samples : ℕ := (⌊sampleRate * lookaheadMs / 1000⌋).toNat
  let samples := if bufferSize < samples then bufferSize else samples
  if samples < 1 then 1 else samples

/-! ## The processing loop (seymour.cpp `step`, lines 575-724) -/

/-- The `uint32_t` evaluation of `(writeIdx + bufSize - lookahead) %
bufSize` (seymour.cpp line 682): the subtraction wraps modulo `2^32`,
so the value is `((writeIdx + bufSize + 2^32 - lookahead) % 2^32) %
bufSize`. -/
def readIndexCalc (writeIdx bufSize lookahead : ℕ) : ℕ :=
  ((writeIdx + bufSize + 4294967296 - lookahead) % 4294967296) % bufSize

/-- The values produced for one channel in one frame of the inner
channel loop (seymour.cpp lines 613-666): the updated per-channel
state together with the locals the surrounding frame uses
(`feedbackSample`, `processed`, `gainL`, `gainR`) and the resolved
control targets (`fbBase`/`panBase` after CV blending). -/
structure ChannelFrameOut where
  state : ChannelState
  feedbackTarget : ℝ
  feedbackSample : ℝ
  processed : ℝ
  panTarget : ℝ
  gainL : ℝ
  gainR : ℝ

/-- One channel's body of the inner loop of `step`
(seymour.cpp lines 613-666), in source order: input read (bus index
`v - 1`, negative means silence), feedback CV resolve + clamp +
blend, feedback smoothing, feedback tap `feedbackState * feedback`,
mix, DC block, state write-back, pan CV resolve + clamp, pan
smoothing, equal-power pan. -/
noncomputable def channelFrame (v : ℕ → ℤ) (busFrames : ℕ → ℝ)
    (numFrames i ch : ℕ) (smoothCoeff dcCoeff : ℝ)
    (cs : ChannelState) : ChannelFrameOut :=
  let paramBase := ch * kParamsPerChannel
  let inBus : ℤ := v (paramBase + kChParamInput) - 1
  let input : ℝ :=
    if 0 ≤ inBus then busFrames (inBus.toNat * numFrames + i) else 0
  let fbBase : ℝ := (v (paramBase + kChParamFeedback) : ℝ) / 100
  let fbCVBus : ℤ := v (paramBase + kChParamFeedbackCV) - 1
  let fbCVDepth : ℝ := (v (paramBase + kChParamFeedbackCVDepth) : ℝ) / 100
  let fbBase :=
    if 0 ≤ fbCVBus then
      let cv := busFrames (fbCVBus.toNat * numFrames + i) / 5
      let cv := cv * 0.5 + 0.5
      let cv := if cv < 0 then 0 else cv
      let cv := if 1 < cv then 1 else cv
      fbBase * (1 - fbCVDepth) + cv * fbCVDepth
    else fbBase
  let feedbackSmoothed :=
    cs.feedbackSmoothed + smoothCoeff * (fbBase - cs.feedbackSmoothed)
  let feedback := feedbackSmoothed
  let feedbackSample := cs.feedbackState * feedback
  let mixed := input + feedbackSample
  let dcb := dcBlock mixed cs.dcBlockerX1 cs.dcBlockerY1 dcCoeff
  let processed := dcb.1
  let panBase : ℝ := (v (paramBase + kChParamPan) : ℝ)
  let panCVBus : ℤ := v (paramBase + kChParamPanCV) - 1
  let panCVDepth : ℝ := (v (paramBase + kChParamPanCVDepth) : ℝ) / 100
  let panBase :=
    if 0 ≤ panCVBus then
      let cv := busFrames (panCVBus.toNat * numFrames + i) / 5
      let p := panBase + cv * 100 * panCVDepth
      let p := if p < -100 then -100 else p
      if 100 < p then 100 else p
    else panBase
  let panSmoothed := cs.panSmoothed + smoothCoeff * (panBase - cs.panSmoothed)
  let gains := equalPowerPan panSmoothed
  { state := ⟨feedbackSmoothed, panSmoothed, processed, dcb.2.1, dcb.2.2⟩
    feedbackTarget := fbBase
    feedbackSample := feedbackSample
    processed := processed
    panTarget := panBase
    gainL := gains.1
    gainR := gains.2 }

/-- The channel loop of one frame (seymour.cpp lines 609-667):
left-to-right over the channels, accumulating `mixL += processed *
gainL` and `mixR += processed * gainR`; returns the updated channel
states and the accumulated stereo mix. -/
noncomputable def channelLoop (v : ℕ → ℤ) (busFrames : ℕ → ℝ)
    (numFrames i : ℕ) (smoothCoeff dcCoeff : ℝ) :
    ℕ → ℝ → ℝ → List ChannelState → List ChannelState × ℝ × ℝ
  | _, mixL, mixR, [] => ([], mixL, mixR)
  | ch, mixL, mixR, cs :: rest =>
      let out := channelFrame v busFrames numFrames i ch smoothCoeff dcCoeff cs
      let r := channelLoop v busFrames numFrames i smoothCoeff dcCoeff
        (ch + 1) (mixL + out.processed * out.gainL)
        (mixR + out.processed * out.gainR) rest
      (out.state :: r.1, r.2)

/-- The peak computation of `step` (seymour.cpp lines 687-689):
`absL = mixL > 0 ? mixL : -mixL`, likewise `absR`, then
`absL > absR ? absL : absR`. -/
noncomputable def peakOf (mixL mixR : ℝ) : ℝ :=
  let absL := if 0 < mixL then mixL else -mixL
  let absR := if 0 < mixR then mixR else -mixR
  if absR < absL then absL else absR

/-- The asymmetric envelope follower of `step` (seymour.cpp lines
692-693): attack pole when the peak exceeds the envelope, release
pole otherwise, then one-pole update. -/
noncomputable def envelopeFollow (envelope attack release peakIn : ℝ) : ℝ :=
  let envCoeff := if envelope < peakIn then attack else release
  envelope + envCoeff * (peakIn - envelope)

/-- The target-gain computation of `step` (seymour.cpp lines
696-699): 1, overridden with `threshold / envelope` when the envelope
exceeds the threshold. -/
noncomputable def targetGainOf (envelope : ℝ) : ℝ :=
  if kLimiterThreshold < envelope then kLimiterThreshold / envelope else 1

/-- The lookahead-limiter section of one frame (seymour.cpp lines
674-713), in source order: write the current mix at the write index,
fetch the delayed sample at the read index from the just-written
buffer, peak of the current mix, asymmetric envelope follower, target
gain from the threshold comparison, one-pole gain smoothing, gain
applied to the delayed sample, saturation, write-index advance.
Returns the updated DTC (limiter state + write index), the updated
buffer and the final stereo sample. -/
noncomputable def limiterFrame (dtc : SeymourDTC) (buf : ℕ → ℝ)
    (satMode : ℤ) (mixL mixR : ℝ) :
    SeymourDTC × (ℕ → ℝ) × ℝ × ℝ :=
  let writeIdx := dtc.writeIndex
  let buf := Function.update (Function.update buf (writeIdx * 2) mixL)
    (writeIdx * 2 + 1) mixR
  let readIdx := readIndexCalc writeIdx dtc.bufferSize dtc.lookaheadSamples
  let delayedL := buf (readIdx * 2)
  let delayedR := buf (readIdx * 2 + 1)
  let peakIn := peakOf mixL mixR
  let envelope :=
    envelopeFollow dtc.envelope dtc.envelopeAttack dtc.envelopeRelease peakIn
  let targetGain := targetGainOf envelope
  let gainReduction :=
    dtc.gainReduction + dtc.gainSmoothingCoeff * (targetGain - dtc.gainReduction)
  let limitedL := delayedL * gainReduction
  let limitedR := delayedR * gainReduction
  let finalL := saturate limitedL satMode
  let finalR := saturate limitedR satMode
  let writeIndex := (writeIdx + 1) % dtc.bufferSize
  ({ dtc with
      envelope := envelope
      gainReduction := gainReduction
      writeIndex := writeIndex },
   buf, finalL, finalR)

/-- One iteration of the frame loop of `step` (seymour.cpp lines
608-723): channel loop, master-level smoothing and pre-limiter scaling
(lines 669-672), limiter, then the output write into the host bus
array — overwrite in replace mode, accumulate in add mode (lines
715-722, L written before R).  Returns the updated algorithm state and
the updated flat bus array. -/
noncomputable def stepFrame (alg : SeymourAlgorithm) (busFrames : ℕ → ℝ)
    (numFrames i : ℕ) : SeymourAlgorithm × (ℕ → ℝ) :=
  let globalBase := alg.numInputs * kParamsPerChannel
  let outLBus : ℤ := alg.v (globalBase + kGlobalParamOutputL) - 1
  let outRBus : ℤ := alg.v (globalBase + kGlobalParamOutputR) - 1
  let masterTarget : ℝ := (alg.v (globalBase + kGlobalParamMasterLevel) : ℝ) / 100
  let satMode : ℤ := alg.v (globalBase + kGlobalParamSaturation)
  let cl := channelLoop alg.v busFrames numFrames i
    alg.dtc.smoothingCoeff alg.dtc.dcBlockerCoeff 0 0 0 alg.channels
  let channels := cl.1
  let masterLevelSmoothed := alg.masterLevelSmoothed +
    alg.dtc.smoothingCoeff * (masterTarget - alg.masterLevelSmoothed)
  let mixL := cl.2.1 * masterLevelSmoothed
  let mixR := cl.2.2 * masterLevelSmoothed
  let lim := limiterFrame alg.dtc alg.lookaheadBuffer satMode mixL mixR
  let finalL := lim.2.2.1
  let finalR := lim.2.2.2
  let outLIdx := outLBus.toNat * numFrames + i
  let outRIdx := outRBus.toNat * numFrames + i
  let frames :=
    if alg.v (globalBase + kGlobalParamOutputMode) = 0 then
      let f1 := Function.update busFrames outLIdx (busFrames outLIdx + finalL)
      Function.update f1 outRIdx (f1 outRIdx + finalR)
    else
      Function.update (Function.update busFrames outLIdx finalL) outRIdx finalR
  ({ alg with
      dtc := lim.1
      lookaheadBuffer := lim.2.1
      channels := channels
      masterLevelSmoothed := masterLevelSmoothed },
   frames)

/-- The frame loop of `step` over a list of frame indices, threading
the algorithm state and the bus array. -/
noncomputable def runFrames (numFrames : ℕ) :
    SeymourAlgorithm × (ℕ → ℝ) → List ℕ → SeymourAlgorithm × (ℕ → ℝ)
  | p, [] => p
  | p, i :: rest => runFrames numFrames (stepFrame p.1 p.2 numFrames i) rest

/-- `step` (seymour.cpp lines 575-724): `numFrames = numFramesBy4 * 4`
frames processed in order. -/
noncomputable def step (alg : SeymourAlgorithm) (busFrames : ℕ → ℝ)
    (numFramesBy4 : ℕ) : SeymourAlgorithm × (ℕ → ℝ) :=
  runFrames (numFramesBy4 * 4) (alg, busFrames) (List.range (numFramesBy4 * 4))

/-- The left sample entering the limiter in frame `i` of `step`: the
channel loop's accumulated mix scaled by the updated smoothed master
level (seymour.cpp lines 669-672). -/
noncomputable def frameMixL (alg : SeymourAlgorithm) (bus : ℕ → ℝ)
    (nF i : ℕ) : ℝ :=
  (channelLoop alg.v bus nF i alg.dtc.smoothingCoeff alg.dtc.dcBlockerCoeff
      0 0 0 alg.channels).2.1 *
    (alg.masterLevelSmoothed + alg.dtc.smoothingCoeff *
      ((alg.v (alg.numInputs * kParamsPerChannel + kGlobalParamMasterLevel) : ℝ)
          / 100 - alg.masterLevelSmoothed))

/-- The right sample entering the limiter in frame `i` of `step`. -/
noncomputable def frameMixR (alg : SeymourAlgorithm) (bus : ℕ → ℝ)
    (nF i : ℕ) : ℝ :=
  (channelLoop alg.v bus nF i alg.dtc.smoothingCoeff alg.dtc.dcBlockerCoeff
      0 0 0 alg.channels).2.2 *
    (alg.masterLevelSmoothed + alg.dtc.smoothingCoeff *
      ((alg.v (alg.numInputs * kParamsPerChannel + kGlobalParamMasterLevel) : ℝ)
          / 100 - alg.masterLevelSmoothed))

/-! ## Concrete instances used to exercise the embedding

Parameter vectors are laid out exactly as the host's value array `v`:
seven per-channel values (`Input`, `Feedback`, `FB CV`, `FB Depth`,
`Pan`, `Pan CV`, `Pan Depth`) for one channel, followed by the six
globals (`Out L`, `Out R`, `Mode`, `Level`, `Lookahead`,
`Saturation`). -/

/-- One channel, input bus 1, feedback 100 %, no CV routing, pan 0;
outputs 13/14 in replace mode, level 100 %, Soft saturation. -/
def vC1 : ℕ → ℤ :=
  fun n => ([1, 100, 0, 50, 0, 0, 50, 13, 14, 1, 100, 50, 0] : List ℤ).getD n 0

/-- Bus signals: input bus 1 (flat indices 0-3 for a 4-frame block)
carries 1 at frame 0 and silence afterwards. -/
noncomputable def busC1 : ℕ → ℝ := fun j => if j = 0 then 1 else 0

/-- One channel, input bus 1, feedback 0 %, no CV routing, pan 0. -/
def vC2 : ℕ → ℤ :=
  fun n => ([1, 0, 0, 50, 0, 0, 50, 13, 14, 1, 100, 50, 0] : List ℤ).getD n 0

/-- Bus signals: input bus 1 carries 1 at frames 0 and 1. -/
noncomputable def busC2 : ℕ → ℝ := fun j => if j ≤ 1 then 1 else 0

/-- One channel, feedback 0 %, pan 0, master level 100 %. -/
def vC3A : ℕ → ℤ :=
  fun n => ([1, 0, 0, 50, 0, 0, 50, 13, 14, 1, 100, 50, 0] : List ℤ).getD n 0

/-- Identical to `vC3A` except master level 50 %. -/
def vC3B : ℕ → ℤ :=
  fun n => ([1, 0, 0, 50, 0, 0, 50, 13, 14, 1, 50, 50, 0] : List ℤ).getD n 0

/-- A limiter/coefficient state with fast attack (pole 9/10) and the
remaining poles at 1/2; write index 0, lookahead 4 samples, full
1920-sample capacity, limiter state at its constructed values. -/
noncomputable def dtcC3 : SeymourDTC :=
  ⟨0, 1, 0, 4, 1920, 1/2, 9/10, 1/2, 1/2, 1/2⟩

/-- Algorithm state for the master-level experiment, level 100 %. -/
noncomputable def algC3A : SeymourAlgorithm :=
  ⟨1, vC3A, dtcC3, fun _ => 0, [ChannelState.init], 8/10⟩

/-- Algorithm state for the master-level experiment, level 50 %. -/
noncomputable def algC3B : SeymourAlgorithm :=
  ⟨1, vC3B, dtcC3, fun _ => 0, [ChannelState.init], 8/10⟩

/-- Bus signals: input bus 1 carries 2 at frame 0. -/
noncomputable def busC3 : ℕ → ℝ := fun j => if j = 0 then 2 else 0

/-- One channel, feedback 0 %, pan 0, master level 100 %, Hard
saturation, replace mode. -/
def vC5 : ℕ → ℤ :=
  fun n => ([1, 0, 0, 50, 0, 0, 50, 13, 14, 1, 100, 50, 2] : List ℤ).getD n 0

/-- Limiter state with all poles 1/2 and the lookahead at the full
capacity (reachable: lookahead parameter 200 = 20 ms at 96 kHz gives
1920 = capacity). -/
noncomputable def dtcC5 : SeymourDTC :=
  ⟨0, 1, 0, 1920, 1920, 1/2, 1/2, 1/2, 1/2, 1/2⟩

/-- Algorithm state for the saturation experiment. -/
noncomputable def algC5 : SeymourAlgorithm :=
  ⟨1, vC5, dtcC5, fun _ => 0, [ChannelState.init], 8/10⟩

/-- Bus signals: input bus 1 carries √2 at frame 0 (panned centre
with the equal-power law, this mixes to exactly 1). -/
noncomputable def busC5 : ℕ → ℝ := fun j => if j = 0 then Real.sqrt 2 else 0

/-- One channel with CV routing: feedback 40 %, feedback-CV bus 3,
CV depth 50 %. -/
def vC8 : ℕ → ℤ :=
  fun n => ([1, 40, 3, 50, 0, 0, 50, 13, 14, 1, 80, 50, 0] : List ℤ).getD n 0

/-- Bus signals: CV bus 3 (flat indices 8-11) carries 2.5 V at
frame 0. -/
noncomputable def busC8 : ℕ → ℝ := fun j => if j = 8 then 5/2 else 0

/-- Limiter state for the C4 witness: write index 7, lookahead 4,
capacity 1920, poles 1/2. -/
noncomputable def dtcC4 : SeymourDTC :=
  ⟨0, 1, 7, 4, 1920, 1/2, 1/2, 1/2, 1/2, 1/2⟩

/-- One channel, everything quiescent; used for the C9 and C10
witnesses. -/
def vC10 : ℕ → ℤ :=
  fun n => ([1, 0, 0, 50, 0, 0, 50, 13, 14, 1, 80, 50, 0] : List ℤ).getD n 0

/-- All-silent bus array. -/
noncomputable def busSilent : ℕ → ℝ := fun _ => 0

/-- A one-channel instance (outputs 13/14, replace mode) used for the
C10 witness. -/
noncomputable def algC10 : SeymourAlgorithm :=
  ⟨1, vC10, dtcC4, busSilent, [ChannelState.init], 8/10⟩

/-! ## Helper lemmas -/

/-- For reachable index values (lookahead at most the capacity, write
index inside the buffer, capacity small), the `uint32_t` read-index
computation agrees with the plain natural-number formula
`(writeIdx + bufSize - lookahead) % bufSize`. -/
lemma readIndexCalc_eq (w cap la : ℕ) (hla : la ≤ cap) (hw : w < cap)
    (hcap : 2 * cap ≤ 4294967296) :
    readIndexCalc w cap la = (w + cap - la) % cap := by
  unfold readIndexCalc
  have h1 : w + cap + 4294967296 - la = (w + cap - la) + 4294967296 := by omega
  have h2 : w + cap - la < 4294967296 := by omega
  rw [h1, Nat.add_mod_right, Nat.mod_eq_of_lt h2]

/-- The read index is always inside the buffer when the capacity is
positive. -/
lemma readIndexCalc_lt (w cap la : ℕ) (hcap : 0 < cap) :
    readIndexCalc w cap la < cap :=
  Nat.mod_lt _ hcap

/-- The source's two-sided clamp (`if (cv < 0) cv = 0; if (cv > 1)
cv = 1;`) equals clamping to `[0, 1]`. -/
lemma clampChain_eq (x : ℝ) :
    (if 1 < (if x < 0 then (0 : ℝ) else x) then (1 : ℝ)
      else if x < 0 then 0 else x) = min 1 (max 0 x) := by
  rcases lt_or_le x 0 with h | h
  · rw [if_pos h, if_neg (by norm_num : ¬ (1 : ℝ) < 0),
      max_eq_left h.le, min_eq_right (by norm_num : (0 : ℝ) ≤ 1)]
  · rw [if_neg (not_lt.mpr h), max_eq_right h]
    rcases lt_or_le 1 x with h1 | h1
    · rw [if_pos h1, min_eq_left h1.le]
    · rw [if_neg (not_lt.mpr h1), min_eq_right h1]

/-- The source's ternary `x > 0 ? x : -x` is the absolute value. -/
lemma ifAbs_eq (x : ℝ) : (if 0 < x then x else -x) = |x| := by
  rcases lt_or_le 0 x with h | h
  · rw [if_pos h, abs_of_pos h]
  · rw [if_neg (not_lt.mpr h), abs_of_nonpos h]

/-- The source's ternary `a > b ? a : b` is the maximum. -/
lemma ifMax_eq (a b : ℝ) : (if b < a then a else b) = max a b := by
  rcases lt_or_le b a with h | h
  · rw [if_pos h, max_eq_left h.le]
  · rw [if_neg (not_lt.mpr h), max_eq_right h]

/-- The source's `if (envelope > threshold) target = threshold /
envelope` (target initialised to 1) written with the complementary
condition. -/
lemma ifTarget_eq (t e : ℝ) :
    (if t < e then t / e else 1) = (if e ≤ t then (1 : ℝ) else t / e) := by
  rcases lt_or_le t e with h | h
  · rw [if_pos h, if_neg (not_le.mpr h)]
  · rw [if_neg (not_lt.mpr h), if_pos h]

/-- The peak ternaries compute `max(|mixL|, |mixR|)`. -/
lemma peakOf_eq_max (mixL mixR : ℝ) : peakOf mixL mixR = max |mixL| |mixR| := by
  simp only [peakOf, ifAbs_eq, ifMax_eq]

/-! ## Claims -/

/-- Claim C6: for every pan position `p ∈ [-100, 100]`, the
equal-power panner returns `gainL = cos(((p+100)/200)·π/2)` and
`gainR = sin(((p+100)/200)·π/2)`, and `gainL² + gainR² = 1` (exactly,
hence within any tolerance ε). -/
theorem C6_equal_power_pan (p : ℝ) (h1 : -100 ≤ p) (h2 : p ≤ 100) :
    (equalPowerPan p).1 = Real.cos ((p + 100) / 200 * (Real.pi / 2)) ∧
    (equalPowerPan p).2 = Real.sin ((p + 100) / 200 * (Real.pi / 2)) ∧
    (equalPowerPan p).1 ^ 2 + (equalPowerPan p).2 ^ 2 = 1 := by
  refine ⟨rfl, rfl, ?_⟩
  have h := Real.sin_sq_add_cos_sq ((p + 100) / 200 * (Real.pi / 2))
  simp only [equalPowerPan]
  linarith

/-- Witness for C6 at pan position 0. -/
theorem C6_equal_power_pan_witness :
    (-100 : ℝ) ≤ 0 ∧ (0 : ℝ) ≤ 100 ∧
    (equalPowerPan 0).1 ^ 2 + (equalPowerPan 0).2 ^ 2 = 1 :=
  ⟨by norm_num, by norm_num,
    (C6_equal_power_pan 0 (by norm_num) (by norm_num)).2.2⟩

/-- Claim C7: when the lookahead parameter changes, the derived sample
count is clamped into `[1, bufferSize]`; consequently (and in fact for
every value of the state) the read index
`(writeIndex + capacity - lookaheadSamples) mod capacity` lies in
`[0, capacity)`, and both the read and write accesses into the
stereo-interleaved lookahead buffer (`idx*2` and `idx*2+1`) are below
`capacity*2`, the allocated float count. -/
theorem C7_lookahead_bounds :
    (∀ (sr : ℝ) (vp : ℤ) (cap : ℕ), 1 ≤ cap →
      1 ≤ parameterChangedLookahead sr vp cap ∧
      parameterChangedLookahead sr vp cap ≤ cap) ∧
    (∀ w cap la : ℕ, la ≤ cap → w < cap → 2 * cap ≤ 4294967296 →
      readIndexCalc w cap la = (w + cap - la) % cap ∧
      readIndexCalc w cap la < cap ∧
      readIndexCalc w cap la * 2 + 1 < cap * 2 ∧
      w * 2 + 1 < cap * 2) := by
  constructor
  · intro sr vp cap hcap
    simp only [parameterChangedLookahead]
    split_ifs <;> omega
  · intro w cap la hla hw hcap
    have h1 := readIndexCalc_eq w cap la hla hw hcap
    have h2 := readIndexCalc_lt w cap la (by omega)
    exact ⟨h1, h2, by omega, by omega⟩

/-- Witness for C7: lookahead parameter 50 (5 ms) at 48 kHz with the
actual buffer capacity 1920, and the read index for write index 0 and
lookahead 240. -/
theorem C7_lookahead_bounds_witness :
    ((1 : ℕ) ≤ 1920 ∧
      1 ≤ parameterChangedLookahead 48000 50 1920 ∧
      parameterChangedLookahead 48000 50 1920 ≤ 1920) ∧
    ((240 : ℕ) ≤ 1920 ∧ (0 : ℕ) < 1920 ∧ 2 * 1920 ≤ 4294967296 ∧
      readIndexCalc 0 1920 240 = (0 + 1920 - 240) % 1920 ∧
      readIndexCalc 0 1920 240 < 1920 ∧
      readIndexCalc 0 1920 240 * 2 + 1 < 1920 * 2 ∧
      0 * 2 + 1 < 1920 * 2) := by
  have h1 := C7_lookahead_bounds.1 48000 50 1920 (by norm_num)
  have h2 := C7_lookahead_bounds.2 0 1920 240 (by norm_num) (by norm_num)
    (by norm_num)
  exact ⟨⟨by norm_num, h1⟩,
    ⟨by norm_num, by norm_num, by norm_num, h2.1, h2.2.1, h2.2.2.1, h2.2.2.2⟩⟩

/-- Claim C8: when a feedback-CV bus is configured (bus parameter at
least 1), the CV sample is mapped from the ±5-unit range to `[0,1]`
(divide by 5, scale by 0.5, offset by 0.5, clamp) and the feedback
target is `base·(1−depth) + cv·depth`; with no CV bus configured the
target is the base percentage divided by 100, unmodified. -/
theorem C8_feedback_cv_mapping (v : ℕ → ℤ) (busFrames : ℕ → ℝ)
    (numFrames i ch : ℕ) (smoothCoeff dcCoeff : ℝ) (cs : ChannelState) :
    (1 ≤ v (ch * kParamsPerChannel + kChParamFeedbackCV) →
      (channelFrame v busFrames numFrames i ch smoothCoeff dcCoeff
          cs).feedbackTarget =
        (v (ch * kParamsPerChannel + kChParamFeedback) : ℝ) / 100 *
            (1 - (v (ch * kParamsPerChannel + kChParamFeedbackCVDepth) : ℝ) / 100) +
          min 1 (max 0
              (busFrames
                  ((v (ch * kParamsPerChannel + kChParamFeedbackCV) - 1).toNat *
                    numFrames + i) / 5 * 0.5 + 0.5)) *
            ((v (ch * kParamsPerChannel + kChParamFeedbackCVDepth) : ℝ) / 100)) ∧
    (v (ch * kParamsPerChannel + kChParamFeedbackCV) < 1 →
      (channelFrame v busFrames numFrames i ch smoothCoeff dcCoeff
          cs).feedbackTarget =
        (v (ch * kParamsPerChannel + kChParamFeedback) : ℝ) / 100) := by
  constructor
  · intro h
    have hc : (0 : ℤ) ≤ v (ch * kParamsPerChannel + kChParamFeedbackCV) - 1 := by
      omega
    simp only [channelFrame, if_pos hc, ← clampChain_eq]
  · intro h
    have hc : ¬ (0 : ℤ) ≤ v (ch * kParamsPerChannel + kChParamFeedbackCV) - 1 := by
      omega
    simp only [channelFrame, if_neg hc]

/-- Witness for C8: one channel with feedback 40 %, CV depth 50 %, CV
bus 3 carrying 2.5 V at frame 0 — the CV maps to 0.75 and the blended
target is 0.575. -/
theorem C8_feedback_cv_mapping_witness :
    1 ≤ vC8 (0 * kParamsPerChannel + kChParamFeedbackCV) ∧
    (channelFrame vC8 busC8 4 0 0 (1/2) (1/2) ChannelState.init).feedbackTarget
      = 23 / 40 := by
  constructor
  · decide
  · have h := (C8_feedback_cv_mapping vC8 busC8 4 0 0 (1/2) (1/2)
      ChannelState.init).1 (by decide)
    rw [h]
    have h8 : ((2 : ℤ).toNat * 4 + 0 : ℕ) = 8 := rfl
    norm_num [vC8, busC8, kParamsPerChannel, kChParamFeedback,
      kChParamFeedbackCV, kChParamFeedbackCVDepth, h8,
      min_def, max_def]

/-- Claim C4: in each frame the limiter writes the current stereo mix
at the write index before the read; the read index is
`(writeIndex + capacity − lookaheadSamples) mod capacity`; the peak is
`max(|mixL|, |mixR|)` of the current, un-delayed mix; the envelope
uses the attack pole when the peak exceeds it and the release pole
otherwise; the target gain is 1 when the envelope is at most the
threshold and `threshold / envelope` otherwise; and the smoothed gain
is applied to the delayed sample fetched from the read index, not to
the current mix. -/
theorem C4_limiter_pipeline (dtc : SeymourDTC) (buf : ℕ → ℝ)
    (satMode : ℤ) (mixL mixR : ℝ)
    (hla : dtc.lookaheadSamples ≤ dtc.bufferSize)
    (hw : dtc.writeIndex < dtc.bufferSize)
    (hcap : 2 * dtc.bufferSize ≤ 4294967296) :
    let bufW := Function.update
      (Function.update buf (dtc.writeIndex * 2) mixL)
      (dtc.writeIndex * 2 + 1) mixR
    let readIdx :=
      (dtc.writeIndex + dtc.bufferSize - dtc.lookaheadSamples) % dtc.bufferSize
    let peak := max |mixL| |mixR|
    let envCoeff :=
      if dtc.envelope < peak then dtc.envelopeAttack else dtc.envelopeRelease
    let env := dtc.envelope + envCoeff * (peak - dtc.envelope)
    let target :=
      if env ≤ kLimiterThreshold then (1 : ℝ) else kLimiterThreshold / env
    let gr := dtc.gainReduction + dtc.gainSmoothingCoeff * (target - dtc.gainReduction)
    (limiterFrame dtc buf satMode mixL mixR).2.1 = bufW ∧
    (limiterFrame dtc buf satMode mixL mixR).1.envelope = env ∧
    (limiterFrame dtc buf satMode mixL mixR).1.gainReduction = gr ∧
    (limiterFrame dtc buf satMode mixL mixR).2.2.1 =
      saturate (bufW (readIdx * 2) * gr) satMode ∧
    (limiterFrame dtc buf satMode mixL mixR).2.2.2 =
      saturate (bufW (readIdx * 2 + 1) * gr) satMode := by
  refine ⟨?_, ?_, ?_, ?_, ?_⟩ <;>
    simp only [limiterFrame, envelopeFollow, targetGainOf, peakOf_eq_max,
      ifTarget_eq] <;>
    rw [readIndexCalc_eq dtc.writeIndex dtc.bufferSize dtc.lookaheadSamples
      hla hw hcap]

/-- Witness for C4 at a concrete limiter state (write index 7,
lookahead 4, capacity 1920, coefficients 1/2) and mix (3, -2). -/
theorem C4_limiter_pipeline_witness :
    dtcC4.lookaheadSamples ≤ dtcC4.bufferSize ∧
    dtcC4.writeIndex < dtcC4.bufferSize ∧
    2 * dtcC4.bufferSize ≤ 4294967296 ∧
    ((limiterFrame dtcC4 (fun _ => 0) 0 3 (-2)).1.envelope =
      dtcC4.envelope +
        (if dtcC4.envelope < max |(3 : ℝ)| |(-2 : ℝ)| then dtcC4.envelopeAttack
          else dtcC4.envelopeRelease) *
        (max |(3 : ℝ)| |(-2 : ℝ)| - dtcC4.envelope)) := by
  refine ⟨by norm_num [dtcC4], by norm_num [dtcC4], by norm_num [dtcC4], ?_⟩
  exact (C4_limiter_pipeline dtcC4 (fun _ => 0) 0 3 (-2)
    (by norm_num [dtcC4]) (by norm_num [dtcC4]) (by norm_num [dtcC4])).2.1

/-- The peak fed to the envelope follower is non-negative. -/
lemma peakOf_nonneg (mixL mixR : ℝ) : 0 ≤ peakOf mixL mixR := by
  rw [peakOf_eq_max]
  exact le_trans (abs_nonneg mixL) (le_max_left _ _)

/-- The envelope follower keeps the envelope non-negative for poles in
`(0, 1]` and a non-negative peak. -/
lemma envelopeFollow_nonneg (e A R p : ℝ) (he : 0 ≤ e) (hp : 0 ≤ p)
    (hA0 : 0 < A) (hA1 : A ≤ 1) (hR0 : 0 < R) (hR1 : R ≤ 1) :
    0 ≤ envelopeFollow e A R p := by
  simp only [envelopeFollow]
  split_ifs <;> nlinarith

/-- The target gain always lies in `(0, 1]`: it is 1 below the
threshold and `threshold / envelope < 1` above it. -/
lemma targetGainOf_mem (e : ℝ) : 0 < targetGainOf e ∧ targetGainOf e ≤ 1 := by
  unfold targetGainOf kLimiterThreshold
  split_ifs with h
  · have he : (0 : ℝ) < e := lt_trans one_pos h
    exact ⟨div_pos one_pos he, by rw [div_le_one he]; linarith⟩
  · norm_num

/-- One limiter step keeps the envelope non-negative and the smoothed
gain reduction in `(0, 1]`, for poles in `(0, 1]`. -/
lemma limiterFrame_gain_invariant (dtc : SeymourDTC) (buf : ℕ → ℝ)
    (satMode : ℤ) (mixL mixR : ℝ)
    (hA0 : 0 < dtc.envelopeAttack) (hA1 : dtc.envelopeAttack ≤ 1)
    (hR0 : 0 < dtc.envelopeRelease) (hR1 : dtc.envelopeRelease ≤ 1)
    (hG0 : 0 < dtc.gainSmoothingCoeff) (hG1 : dtc.gainSmoothingCoeff ≤ 1)
    (hE : 0 ≤ dtc.envelope) (hg0 : 0 < dtc.gainReduction)
    (hg1 : dtc.gainReduction ≤ 1) :
    0 ≤ (limiterFrame dtc buf satMode mixL mixR).1.envelope ∧
    0 < (limiterFrame dtc buf satMode mixL mixR).1.gainReduction ∧
    (limiterFrame dtc buf satMode mixL mixR).1.gainReduction ≤ 1 := by
  have henv : 0 ≤ envelopeFollow dtc.envelope dtc.envelopeAttack
      dtc.envelopeRelease (peakOf mixL mixR) :=
    envelopeFollow_nonneg _ _ _ _ hE (peakOf_nonneg mixL mixR) hA0 hA1 hR0 hR1
  have ht := targetGainOf_mem (envelopeFollow dtc.envelope dtc.envelopeAttack
    dtc.envelopeRelease (peakOf mixL mixR))
  have key : ∀ t : ℝ, 0 < t → t ≤ 1 →
      0 < dtc.gainReduction + dtc.gainSmoothingCoeff * (t - dtc.gainReduction) ∧
      dtc.gainReduction + dtc.gainSmoothingCoeff * (t - dtc.gainReduction) ≤ 1 := by
    intro t ht0 ht1
    constructor <;> nlinarith
  exact ⟨henv, (key _ ht.1 ht.2).1, (key _ ht.1 ht.2).2⟩

/-- `construct` derives envelope and gain poles in `(0, 1]` from any
positive sample rate. -/
lemma constructDTC_pole_bounds (sr : ℝ) (hsr : 0 < sr) :
    (0 < (constructDTC sr).envelopeAttack ∧ (constructDTC sr).envelopeAttack ≤ 1) ∧
    (0 < (constructDTC sr).envelopeRelease ∧ (constructDTC sr).envelopeRelease ≤ 1) ∧
    (0 < (constructDTC sr).gainSmoothingCoeff ∧
      (constructDTC sr).gainSmoothingCoeff ≤ 1) := by
  have key : ∀ a : ℝ, a < 0 →
      0 < 1 - Real.exp (a / sr) ∧ 1 - Real.exp (a / sr) ≤ 1 := by
    intro a ha
    have h1 : Real.exp (a / sr) < 1 := by
      rw [Real.exp_lt_one_iff]
      exact div_neg_of_neg_of_pos ha hsr
    have h2 : (0 : ℝ) < Real.exp (a / sr) := Real.exp_pos _
    exact ⟨by linarith, by linarith⟩
  simp only [constructDTC]
  exact ⟨key _ (by norm_num), key _ (by norm_num), key _ (by norm_num)⟩

/-- One frame of `step` does not change the cached coefficients, the
parameter array or the channel count. -/
lemma stepFrame_preserves (alg : SeymourAlgorithm) (bus : ℕ → ℝ) (nF i : ℕ) :
    (stepFrame alg bus nF i).1.dtc.envelopeAttack = alg.dtc.envelopeAttack ∧
    (stepFrame alg bus nF i).1.dtc.envelopeRelease = alg.dtc.envelopeRelease ∧
    (stepFrame alg bus nF i).1.dtc.gainSmoothingCoeff = alg.dtc.gainSmoothingCoeff ∧
    (stepFrame alg bus nF i).1.v = alg.v ∧
    (stepFrame alg bus nF i).1.numInputs = alg.numInputs :=
  ⟨rfl, rfl, rfl, rfl, rfl⟩

/-- One frame of `step` preserves the limiter-state invariant. -/
lemma stepFrame_gain_invariant (alg : SeymourAlgorithm) (bus : ℕ → ℝ) (nF i : ℕ)
    (hA0 : 0 < alg.dtc.envelopeAttack) (hA1 : alg.dtc.envelopeAttack ≤ 1)
    (hR0 : 0 < alg.dtc.envelopeRelease) (hR1 : alg.dtc.envelopeRelease ≤ 1)
    (hG0 : 0 < alg.dtc.gainSmoothingCoeff) (hG1 : alg.dtc.gainSmoothingCoeff ≤ 1)
    (hE : 0 ≤ alg.dtc.envelope) (hg0 : 0 < alg.dtc.gainReduction)
    (hg1 : alg.dtc.gainReduction ≤ 1) :
    0 ≤ (stepFrame alg bus nF i).1.dtc.envelope ∧
    0 < (stepFrame alg bus nF i).1.dtc.gainReduction ∧
    (stepFrame alg bus nF i).1.dtc.gainReduction ≤ 1 :=
  limiterFrame_gain_invariant alg.dtc alg.lookaheadBuffer
    (alg.v (alg.numInputs * kParamsPerChannel + kGlobalParamSaturation))
    ((channelLoop alg.v bus nF i alg.dtc.smoothingCoeff alg.dtc.dcBlockerCoeff
        0 0 0 alg.channels).2.1 *
      (alg.masterLevelSmoothed + alg.dtc.smoothingCoeff *
        ((alg.v (alg.numInputs * kParamsPerChannel + kGlobalParamMasterLevel) : ℝ)
            / 100 - alg.masterLevelSmoothed)))
    ((channelLoop alg.v bus nF i alg.dtc.smoothingCoeff alg.dtc.dcBlockerCoeff
        0 0 0 alg.channels).2.2 *
      (alg.masterLevelSmoothed + alg.dtc.smoothingCoeff *
        ((alg.v (alg.numInputs * kParamsPerChannel + kGlobalParamMasterLevel) : ℝ)
            / 100 - alg.masterLevelSmoothed)))
    hA0 hA1 hR0 hR1 hG0 hG1 hE hg0 hg1

/-- The limiter-state invariant is preserved over any list of frames. -/
lemma runFrames_gain_invariant (nF : ℕ) (l : List ℕ) :
    ∀ p : SeymourAlgorithm × (ℕ → ℝ),
      0 < p.1.dtc.envelopeAttack → p.1.dtc.envelopeAttack ≤ 1 →
      0 < p.1.dtc.envelopeRelease → p.1.dtc.envelopeRelease ≤ 1 →
      0 < p.1.dtc.gainSmoothingCoeff → p.1.dtc.gainSmoothingCoeff ≤ 1 →
      0 ≤ p.1.dtc.envelope → 0 < p.1.dtc.gainReduction →
      p.1.dtc.gainReduction ≤ 1 →
      0 ≤ (runFrames nF p l).1.dtc.envelope ∧
      0 < (runFrames nF p l).1.dtc.gainReduction ∧
      (runFrames nF p l).1.dtc.gainReduction ≤ 1 := by
  induction l with
  | nil =>
      intro p _ _ _ _ _ _ hE hg0 hg1
      exact ⟨hE, hg0, hg1⟩
  | cons i rest ih =>
      intro p hA0 hA1 hR0 hR1 hG0 hG1 hE hg0 hg1
      have hstep := stepFrame_gain_invariant p.1 p.2 nF i
        hA0 hA1 hR0 hR1 hG0 hG1 hE hg0 hg1
      have hpres := stepFrame_preserves p.1 p.2 nF i
      exact ih (stepFrame p.1 p.2 nF i)
        (by rw [hpres.1]; exact hA0) (by rw [hpres.1]; exact hA1)
        (by rw [hpres.2.1]; exact hR0) (by rw [hpres.2.1]; exact hR1)
        (by rw [hpres.2.2.1]; exact hG0) (by rw [hpres.2.2.1]; exact hG1)
        hstep.1 hstep.2.1 hstep.2.2

/-- Claim C9: the limiter's gain-reduction state is initialised to 1
at construction and, for any positive sample rate (which puts the
envelope and gain-smoothing poles in `(0, 1]`), it remains in `(0, 1]`
after every frame: the envelope stays non-negative, the per-frame
target gain lies in `(0, 1]`, and the one-pole update is a convex
combination of values in `(0, 1]`. -/
theorem C9_gain_reduction_invariant (sr : ℝ) (hsr : 0 < sr)
    (alg : SeymourAlgorithm) (bus : ℕ → ℝ) (nF : ℕ) (l : List ℕ)
    (hA : alg.dtc.envelopeAttack = (constructDTC sr).envelopeAttack)
    (hR : alg.dtc.envelopeRelease = (constructDTC sr).envelopeRelease)
    (hG : alg.dtc.gainSmoothingCoeff = (constructDTC sr).gainSmoothingCoeff)
    (hE : 0 ≤ alg.dtc.envelope)
    (hg0 : 0 < alg.dtc.gainReduction) (hg1 : alg.dtc.gainReduction ≤ 1) :
    (constructDTC sr).gainReduction = 1 ∧
    (∀ e : ℝ, 0 < targetGainOf e ∧ targetGainOf e ≤ 1) ∧
    0 ≤ (runFrames nF (alg, bus) l).1.dtc.envelope ∧
    0 < (runFrames nF (alg, bus) l).1.dtc.gainReduction ∧
    (runFrames nF (alg, bus) l).1.dtc.gainReduction ≤ 1 := by
  have hb := constructDTC_pole_bounds sr hsr
  refine ⟨rfl, targetGainOf_mem, ?_⟩
  exact runFrames_gain_invariant nF l (alg, bus)
    (by rw [hA]; exact hb.1.1) (by rw [hA]; exact hb.1.2)
    (by rw [hR]; exact hb.2.1.1) (by rw [hR]; exact hb.2.1.2)
    (by rw [hG]; exact hb.2.2.1) (by rw [hG]; exact hb.2.2.2)
    hE hg0 hg1

/-- Witness for C9: the freshly constructed instance at 48 kHz,
silent busses, one processed frame. -/
theorem C9_gain_reduction_invariant_witness :
    (0 : ℝ) < 48000 ∧
    ((constructDTC 48000).gainReduction = 1 ∧
      0 ≤ (runFrames 4 (construct 1 vC10 48000, fun _ => 0) [0]).1.dtc.envelope ∧
      0 < (runFrames 4 (construct 1 vC10 48000, fun _ => 0) [0]).1.dtc.gainReduction ∧
      (runFrames 4 (construct 1 vC10 48000, fun _ => 0) [0]).1.dtc.gainReduction ≤ 1) := by
  have h := C9_gain_reduction_invariant 48000 (by norm_num)
    (construct 1 vC10 48000) (fun _ => 0) 4 [0] rfl rfl rfl
    (by norm_num [construct, constructDTC])
    (by norm_num [construct, constructDTC])
    (by norm_num [construct, constructDTC])
  exact ⟨by norm_num, h.1, h.2.2⟩

/-- One frame of `step` leaves every flat bus index other than the
two output positions of that frame unchanged (in both replace and add
mode). -/
lemma stepFrame_untouched (alg : SeymourAlgorithm) (bus : ℕ → ℝ)
    (nF i j : ℕ)
    (hL : j ≠ (alg.v (alg.numInputs * kParamsPerChannel + kGlobalParamOutputL)
      - 1).toNat * nF + i)
    (hR : j ≠ (alg.v (alg.numInputs * kParamsPerChannel + kGlobalParamOutputR)
      - 1).toNat * nF + i) :
    (stepFrame alg bus nF i).2 j = bus j := by
  simp only [stepFrame]
  split_ifs <;>
    rw [Function.update_noteq hR, Function.update_noteq hL]

/-- Over any list of frame indices, bus entries outside the two
output regions are unchanged. -/
lemma runFrames_untouched (nF j : ℕ) :
    ∀ (l : List ℕ) (p : SeymourAlgorithm × (ℕ → ℝ)),
      (∀ i ∈ l,
        j ≠ (p.1.v (p.1.numInputs * kParamsPerChannel + kGlobalParamOutputL)
          - 1).toNat * nF + i ∧
        j ≠ (p.1.v (p.1.numInputs * kParamsPerChannel + kGlobalParamOutputR)
          - 1).toNat * nF + i) →
      (runFrames nF p l).2 j = p.2 j := by
  intro l
  induction l with
  | nil => intro p _; rfl
  | cons i rest ih =>
      intro p h
      have hpres := stepFrame_preserves p.1 p.2 nF i
      have hi := h i (List.mem_cons_self i rest)
      have hrest : ∀ i' ∈ rest,
          j ≠ ((stepFrame p.1 p.2 nF i).1.v
            ((stepFrame p.1 p.2 nF i).1.numInputs * kParamsPerChannel +
              kGlobalParamOutputL) - 1).toNat * nF + i' ∧
          j ≠ ((stepFrame p.1 p.2 nF i).1.v
            ((stepFrame p.1 p.2 nF i).1.numInputs * kParamsPerChannel +
              kGlobalParamOutputR) - 1).toNat * nF + i' := by
        intro i' hi'
        rw [hpres.2.2.2.1, hpres.2.2.2.2]
        exact h i' (List.mem_cons_of_mem i hi')
      calc (runFrames nF p (i :: rest)).2 j
          = (runFrames nF (stepFrame p.1 p.2 nF i) rest).2 j := rfl
        _ = (stepFrame p.1 p.2 nF i).2 j := ih (stepFrame p.1 p.2 nF i) hrest
        _ = p.2 j := stepFrame_untouched p.1 p.2 nF i j hi.1 hi.2

/-- Claim C10: a call to `step` modifies, within the flat host bus
array, only the frame regions of the two configured output buses (Out
L and Out R); the frames of every other bus are left unchanged. -/
theorem C10_frame_effect (alg : SeymourAlgorithm) (bus : ℕ → ℝ)
    (numFramesBy4 j : ℕ)
    (hL : ∀ i < numFramesBy4 * 4,
      j ≠ (alg.v (alg.numInputs * kParamsPerChannel + kGlobalParamOutputL)
        - 1).toNat * (numFramesBy4 * 4) + i)
    (hR : ∀ i < numFramesBy4 * 4,
      j ≠ (alg.v (alg.numInputs * kParamsPerChannel + kGlobalParamOutputR)
        - 1).toNat * (numFramesBy4 * 4) + i) :
    (step alg bus numFramesBy4).2 j = bus j := by
  refine runFrames_untouched (numFramesBy4 * 4) j
    (List.range (numFramesBy4 * 4)) (alg, bus) ?_
  intro i hi
  exact ⟨hL i (List.mem_range.mp hi), hR i (List.mem_range.mp hi)⟩

/-- Witness for C10: a one-channel instance routed to output buses 13
and 14 (flat indices 48-51 and 52-55 for a 4-frame block); index 100
belongs to neither and is untouched by `step`. -/
theorem C10_frame_effect_witness :
    (step algC10 busSilent 1).2 100 = busSilent 100 := by
  refine C10_frame_effect algC10 busSilent 1 100 ?_ ?_
  · intro i hi
    have h : (algC10.v (algC10.numInputs * kParamsPerChannel +
        kGlobalParamOutputL) - 1).toNat * (1 * 4) = 48 := rfl
    rw [h]
    omega
  · intro i hi
    have h : (algC10.v (algC10.numInputs * kParamsPerChannel +
        kGlobalParamOutputR) - 1).toNat * (1 * 4) = 52 := rfl
    rw [h]
    omega

/-- The panner at centre position: the angle is π/4 and both gains
are √2/2. -/
lemma equalPowerPan_zero :
    equalPowerPan 0 = (Real.sqrt 2 / 2, Real.sqrt 2 / 2) := by
  simp only [equalPowerPan]
  rw [show ((0 : ℝ) + 100) / 200 * (Real.pi / 2) = Real.pi / 4 by ring,
    Real.cos_pi_div_four, Real.sin_pi_div_four]

/-- Claim C1 (amended): the feedback sample added to the fresh input
is the smoothed feedback gain times the channel's processed output of
the immediately previous frame, held in the per-channel single-sample
state `feedbackState`, which is overwritten with the current processed
output each frame.  (There is no feedback delay ring buffer in the
code: `feedbackState` is one float per channel.) -/
theorem C1_feedback_single_sample (v : ℕ → ℤ) (busFrames : ℕ → ℝ)
    (numFrames i ch : ℕ) (smoothCoeff dcCoeff : ℝ) (cs : ChannelState) :
    (channelFrame v busFrames numFrames i ch smoothCoeff dcCoeff
        cs).feedbackSample =
      cs.feedbackState *
        (channelFrame v busFrames numFrames i ch smoothCoeff dcCoeff
          cs).state.feedbackSmoothed ∧
    (channelFrame v busFrames numFrames i ch smoothCoeff dcCoeff
        cs).state.feedbackState =
      (channelFrame v busFrames numFrames i ch smoothCoeff dcCoeff
        cs).processed :=
  ⟨rfl, rfl⟩

/-- Counterexample to claim C1 as stated: one channel, feedback
100 %, input 1 at frame 0 and silence at frame 1.  At frame 1 the
feedback sample is `3/4 · (processed output of frame 0) = 3/4 ≠ 0`,
i.e. the tap is the immediately previous frame's processed output.
Under the claim, a configured delay of 0.5-20 ms (at least 24 samples
at 48 kHz, so at least 2 frames) would make the frame-1 feedback
sample read the delay line's initial zero content instead. -/
theorem C1_counterexample :
    (channelFrame vC1 busC1 4 0 0 (1/2) (1/2) ChannelState.init).processed
      = 1 ∧
    (channelFrame vC1 busC1 4 1 0 (1/2) (1/2)
        (channelFrame vC1 busC1 4 0 0 (1/2) (1/2)
          ChannelState.init).state).feedbackSample =
      3 / 4 *
        (channelFrame vC1 busC1 4 0 0 (1/2) (1/2)
          ChannelState.init).processed ∧
    (3 / 4 : ℝ) *
        (channelFrame vC1 busC1 4 0 0 (1/2) (1/2)
          ChannelState.init).processed ≠ 0 := by
  norm_num [channelFrame, dcBlock, ChannelState.init, vC1, busC1,
    kParamsPerChannel, kChParamInput, kChParamFeedback, kChParamFeedbackCV,
    kChParamFeedbackCVDepth, kChParamPan, kChParamPanCV, kChParamPanCVDepth,
    List.getD]

/-- Claim C2 (amended): the DC-blocking high-pass filter is applied
to the channel's mixed sample — fresh input plus feedback — i.e. to
the forward path as well; with feedback gain 0 the channel's
contribution to the stereo mix is the high-pass-filtered input
panned, not the raw input panned. -/
theorem C2_dcblock_on_forward_path (v : ℕ → ℤ) (busFrames : ℕ → ℝ)
    (numFrames i ch : ℕ) (smoothCoeff dcCoeff : ℝ) (cs : ChannelState) :
    (channelFrame v busFrames numFrames i ch smoothCoeff dcCoeff
        cs).processed =
      (dcBlock
        ((if 0 ≤ v (ch * kParamsPerChannel + kChParamInput) - 1 then
            busFrames
              ((v (ch * kParamsPerChannel + kChParamInput) - 1).toNat *
                numFrames + i)
          else 0) +
          (channelFrame v busFrames numFrames i ch smoothCoeff dcCoeff
            cs).feedbackSample)
        cs.dcBlockerX1 cs.dcBlockerY1 dcCoeff).1 :=
  rfl

/-- Counterexample to claim C2 as stated: one channel with feedback
held at 0 and constant input 1.  At frame 1 the processed sample is
`1 − 1 + R·1 = 1/2 ≠ 1`: the forward path went through the DC
blocker, so the channel's contribution `processed · gainL = √2/4`
differs from the raw input panned, `1 · gainL = √2/2`. -/
theorem C2_counterexample :
    (channelFrame vC2 busC2 4 1 0 (1/2) (1/2)
        (channelFrame vC2 busC2 4 0 0 (1/2) (1/2)
          ChannelState.init).state).processed = 1 / 2 ∧
    (channelFrame vC2 busC2 4 1 0 (1/2) (1/2)
        (channelFrame vC2 busC2 4 0 0 (1/2) (1/2)
          ChannelState.init).state).gainL = Real.sqrt 2 / 2 ∧
    (channelFrame vC2 busC2 4 1 0 (1/2) (1/2)
          (channelFrame vC2 busC2 4 0 0 (1/2) (1/2)
            ChannelState.init).state).processed *
        (channelFrame vC2 busC2 4 1 0 (1/2) (1/2)
          (channelFrame vC2 busC2 4 0 0 (1/2) (1/2)
            ChannelState.init).state).gainL ≠
      1 *
        (channelFrame vC2 busC2 4 1 0 (1/2) (1/2)
          (channelFrame vC2 busC2 4 0 0 (1/2) (1/2)
            ChannelState.init).state).gainL := by
  have h0 : (channelFrame vC2 busC2 4 0 0 (1/2) (1/2)
      ChannelState.init).state = ⟨0, 0, 1, 1, 1⟩ := by
    norm_num [channelFrame, dcBlock, ChannelState.init, vC2, busC2,
      kParamsPerChannel, kChParamInput, kChParamFeedback, kChParamFeedbackCV,
      kChParamFeedbackCVDepth, kChParamPan, kChParamPanCV, kChParamPanCVDepth,
      List.getD]
  rw [h0]
  have hp : (channelFrame vC2 busC2 4 1 0 (1/2) (1/2)
      (⟨0, 0, 1, 1, 1⟩ : ChannelState)).processed = 1 / 2 := by
    norm_num [channelFrame, dcBlock, vC2, busC2,
      kParamsPerChannel, kChParamInput, kChParamFeedback, kChParamFeedbackCV,
      kChParamFeedbackCVDepth, kChParamPan, kChParamPanCV, kChParamPanCVDepth,
      List.getD]
  have hg : (channelFrame vC2 busC2 4 1 0 (1/2) (1/2)
      (⟨0, 0, 1, 1, 1⟩ : ChannelState)).gainL = Real.sqrt 2 / 2 := by
    norm_num [channelFrame, dcBlock, vC2, busC2, equalPowerPan_zero,
      kParamsPerChannel, kChParamInput, kChParamFeedback, kChParamFeedbackCV,
      kChParamFeedbackCVDepth, kChParamPan, kChParamPanCV, kChParamPanCVDepth,
      List.getD]
  have hs : 0 < Real.sqrt 2 := Real.sqrt_pos.mpr (by norm_num)
  refine ⟨hp, hg, ?_⟩
  rw [hp, hg]
  intro heq
  nlinarith

/-- Claim C3 (amended): the smoothed master level multiplies the
stereo mix *before* the limiter — the master-scaled mix is what is
written to the lookahead buffer and drives the envelope/threshold
comparison — and the final output receives no further master factor.
Consequently scaling the master level can change which samples
trigger gain reduction. -/
theorem C3_master_applied_before_limiter (alg : SeymourAlgorithm)
    (bus : ℕ → ℝ) (nF i : ℕ) :
    let m := alg.masterLevelSmoothed + alg.dtc.smoothingCoeff *
      ((alg.v (alg.numInputs * kParamsPerChannel + kGlobalParamMasterLevel) : ℝ)
          / 100 - alg.masterLevelSmoothed)
    let cl := channelLoop alg.v bus nF i alg.dtc.smoothingCoeff
      alg.dtc.dcBlockerCoeff 0 0 0 alg.channels
    (stepFrame alg bus nF i).1.masterLevelSmoothed = m ∧
    (stepFrame alg bus nF i).1.lookaheadBuffer (alg.dtc.writeIndex * 2) =
      cl.2.1 * m ∧
    (stepFrame alg bus nF i).1.lookaheadBuffer (alg.dtc.writeIndex * 2 + 1) =
      cl.2.2 * m ∧
    (stepFrame alg bus nF i).1.dtc = (limiterFrame alg.dtc alg.lookaheadBuffer
      (alg.v (alg.numInputs * kParamsPerChannel + kGlobalParamSaturation))
      (cl.2.1 * m) (cl.2.2 * m)).1 := by
  intro m cl
  refine ⟨rfl, ?_, ?_, rfl⟩
  · show Function.update
      (Function.update alg.lookaheadBuffer (alg.dtc.writeIndex * 2) (cl.2.1 * m))
      (alg.dtc.writeIndex * 2 + 1) (cl.2.2 * m) (alg.dtc.writeIndex * 2) =
      cl.2.1 * m
    rw [Function.update_noteq (by omega), Function.update_same]
  · show Function.update
      (Function.update alg.lookaheadBuffer (alg.dtc.writeIndex * 2) (cl.2.1 * m))
      (alg.dtc.writeIndex * 2 + 1) (cl.2.2 * m) (alg.dtc.writeIndex * 2 + 1) =
      cl.2.2 * m
    rw [Function.update_same]

/-- Claim C5 (amended): saturation is applied to the limited signal
unconditionally, every frame, whether or not gain reduction is
active: the limiter's output is always
`saturate(delayed · gainReduction)`. -/
theorem C5_saturation_unconditional (dtc : SeymourDTC) (buf : ℕ → ℝ)
    (satMode : ℤ) (mixL mixR : ℝ) :
    (limiterFrame dtc buf satMode mixL mixR).2.2.1 =
      saturate ((limiterFrame dtc buf satMode mixL mixR).2.1
          (readIndexCalc dtc.writeIndex dtc.bufferSize dtc.lookaheadSamples * 2) *
        (limiterFrame dtc buf satMode mixL mixR).1.gainReduction) satMode ∧
    (limiterFrame dtc buf satMode mixL mixR).2.2.2 =
      saturate ((limiterFrame dtc buf satMode mixL mixR).2.1
          (readIndexCalc dtc.writeIndex dtc.bufferSize dtc.lookaheadSamples * 2
            + 1) *
        (limiterFrame dtc buf satMode mixL mixR).1.gainReduction) satMode :=
  ⟨rfl, rfl⟩

/-- The limiter state written back by one frame of `step`, as a
formula in the master-scaled mix. -/
lemma stepFrame_gainReduction_eq (alg : SeymourAlgorithm) (bus : ℕ → ℝ)
    (nF i : ℕ) :
    (stepFrame alg bus nF i).1.dtc.gainReduction =
      alg.dtc.gainReduction + alg.dtc.gainSmoothingCoeff *
        (targetGainOf (envelopeFollow alg.dtc.envelope alg.dtc.envelopeAttack
            alg.dtc.envelopeRelease
            (peakOf (frameMixL alg bus nF i) (frameMixR alg bus nF i))) -
          alg.dtc.gainReduction) :=
  rfl

/-- The lookahead buffer written back by one frame of `step`. -/
lemma stepFrame_lookaheadBuffer_eq (alg : SeymourAlgorithm) (bus : ℕ → ℝ)
    (nF i : ℕ) :
    (stepFrame alg bus nF i).1.lookaheadBuffer =
      Function.update
        (Function.update alg.lookaheadBuffer (alg.dtc.writeIndex * 2)
          (frameMixL alg bus nF i))
        (alg.dtc.writeIndex * 2 + 1) (frameMixR alg bus nF i) :=
  rfl

/-- The bus array written back by one frame of `step` in replace
mode. -/
lemma stepFrame_out_replace (alg : SeymourAlgorithm) (bus : ℕ → ℝ)
    (nF i : ℕ)
    (hmode : ¬ alg.v (alg.numInputs * kParamsPerChannel +
      kGlobalParamOutputMode) = 0) :
    (stepFrame alg bus nF i).2 =
      Function.update
        (Function.update bus
          ((alg.v (alg.numInputs * kParamsPerChannel + kGlobalParamOutputL)
            - 1).toNat * nF + i)
          (saturate ((stepFrame alg bus nF i).1.lookaheadBuffer
              (readIndexCalc alg.dtc.writeIndex alg.dtc.bufferSize
                alg.dtc.lookaheadSamples * 2) *
            (stepFrame alg bus nF i).1.dtc.gainReduction)
            (alg.v (alg.numInputs * kParamsPerChannel + kGlobalParamSaturation))))
        ((alg.v (alg.numInputs * kParamsPerChannel + kGlobalParamOutputR)
          - 1).toNat * nF + i)
        (saturate ((stepFrame alg bus nF i).1.lookaheadBuffer
            (readIndexCalc alg.dtc.writeIndex alg.dtc.bufferSize
              alg.dtc.lookaheadSamples * 2 + 1) *
          (stepFrame alg bus nF i).1.dtc.gainReduction)
          (alg.v (alg.numInputs * kParamsPerChannel + kGlobalParamSaturation))) := by
  simp only [stepFrame]
  rw [if_neg hmode]
  rfl

/-- `peakOf` on two equal non-negative samples. -/
lemma peakOf_self (x : ℝ) (hx : 0 ≤ x) : peakOf x x = x := by
  rw [peakOf_eq_max, abs_of_nonneg hx, max_self]

/-- The envelope follower from a zero envelope attacks to `A · p`. -/
lemma envelopeFollow_from_zero (A R p : ℝ) (hp : 0 < p) :
    envelopeFollow 0 A R p = A * p := by
  simp only [envelopeFollow]
  rw [if_pos hp]
  ring

/-- Target gain above the threshold. -/
lemma targetGainOf_of_gt (e : ℝ) (he : 1 < e) : targetGainOf e = 1 / e := by
  simp only [targetGainOf, kLimiterThreshold]
  rw [if_pos he]

/-- Target gain at or below the threshold. -/
lemma targetGainOf_of_le (e : ℝ) (he : e ≤ 1) : targetGainOf e = 1 := by
  simp only [targetGainOf, kLimiterThreshold]
  rw [if_neg (not_lt.mpr he)]

/-- The single channel of the master-level experiment: input 2,
feedback 0, centre pan. -/
lemma channelFrame_vC3A :
    channelFrame vC3A busC3 4 0 0 (1/2) (1/2) ChannelState.init =
      ⟨⟨0, 0, 2, 2, 2⟩, 0, 0, 2, 0, Real.sqrt 2 / 2, Real.sqrt 2 / 2⟩ := by
  norm_num [channelFrame, dcBlock, ChannelState.init, vC3A, busC3,
    equalPowerPan_zero, kParamsPerChannel, kChParamInput, kChParamFeedback,
    kChParamFeedbackCV, kChParamFeedbackCVDepth, kChParamPan, kChParamPanCV,
    kChParamPanCVDepth, List.getD]

/-- As `channelFrame_vC3A` with the 50 % master level parameter set
(the channel parameters coincide). -/
lemma channelFrame_vC3B :
    channelFrame vC3B busC3 4 0 0 (1/2) (1/2) ChannelState.init =
      ⟨⟨0, 0, 2, 2, 2⟩, 0, 0, 2, 0, Real.sqrt 2 / 2, Real.sqrt 2 / 2⟩ := by
  norm_num [channelFrame, dcBlock, ChannelState.init, vC3B, busC3,
    equalPowerPan_zero, kParamsPerChannel, kChParamInput, kChParamFeedback,
    kChParamFeedbackCV, kChParamFeedbackCVDepth, kChParamPan, kChParamPanCV,
    kChParamPanCVDepth, List.getD]

/-- The master-scaled limiter input of the master-level experiment at
level 100 %: `2 · (√2/2) · 0.9 = 0.9·√2`. -/
lemma frameMixL_C3A : frameMixL algC3A busC3 4 0 = 9 / 10 * Real.sqrt 2 := by
  simp only [frameMixL, algC3A, dtcC3, channelLoop, channelFrame_vC3A]
  norm_num [vC3A, kParamsPerChannel, kGlobalParamMasterLevel, List.getD]
  ring

/-- The right channel coincides. -/
lemma frameMixR_C3A : frameMixR algC3A busC3 4 0 = 9 / 10 * Real.sqrt 2 := by
  simp only [frameMixR, algC3A, dtcC3, channelLoop, channelFrame_vC3A]
  norm_num [vC3A, kParamsPerChannel, kGlobalParamMasterLevel, List.getD]
  ring

/-- The master-scaled limiter input at level 50 %:
`2 · (√2/2) · 0.65 = 0.65·√2`. -/
lemma frameMixL_C3B : frameMixL algC3B busC3 4 0 = 13 / 20 * Real.sqrt 2 := by
  simp only [frameMixL, algC3B, dtcC3, channelLoop, channelFrame_vC3B]
  norm_num [vC3B, kParamsPerChannel, kGlobalParamMasterLevel, List.getD]
  ring

/-- The right channel coincides. -/
lemma frameMixR_C3B : frameMixR algC3B busC3 4 0 = 13 / 20 * Real.sqrt 2 := by
  simp only [frameMixR, algC3B, dtcC3, channelLoop, channelFrame_vC3B]
  norm_num [vC3B, kParamsPerChannel, kGlobalParamMasterLevel, List.getD]
  ring

/-- Counterexample to claim C3 as stated: two runs on the same input
(single channel, bus sample 2, feedback 0, centre pan) differing only
in the master-level parameter (100 % vs 50 %).  At level 100 % the
master-scaled mix `0.9·√2 ≈ 1.27` drives the envelope to
`0.81·√2 > 1`, triggering gain reduction (`gainReduction < 1`); at
level 50 % the envelope stays at `0.585·√2 < 1` and no gain reduction
occurs.  The master level is applied before the limiter, so it does
change which samples trigger gain reduction. -/
theorem C3_counterexample :
    (stepFrame algC3A busC3 4 0).1.dtc.gainReduction < 1 ∧
    (stepFrame algC3B busC3 4 0).1.dtc.gainReduction = 1 := by
  have h2 : Real.sqrt 2 * Real.sqrt 2 = 2 := Real.mul_self_sqrt (by norm_num)
  have hs : 0 < Real.sqrt 2 := Real.sqrt_pos.mpr (by norm_num)
  constructor
  · rw [stepFrame_gainReduction_eq, frameMixL_C3A, frameMixR_C3A]
    have hpos : (0 : ℝ) < 9 / 10 * Real.sqrt 2 := by positivity
    rw [peakOf_self _ hpos.le]
    have hdtc : algC3A.dtc = dtcC3 := rfl
    rw [hdtc]
    have henv : envelopeFollow dtcC3.envelope dtcC3.envelopeAttack
        dtcC3.envelopeRelease (9 / 10 * Real.sqrt 2) =
        9 / 10 * (9 / 10 * Real.sqrt 2) := by
      show envelopeFollow 0 (9/10) (1/2) (9 / 10 * Real.sqrt 2) = _
      exact envelopeFollow_from_zero _ _ _ hpos
    rw [henv]
    have hgt : (1 : ℝ) < 9 / 10 * (9 / 10 * Real.sqrt 2) := by nlinarith
    rw [targetGainOf_of_gt _ hgt]
    have hlt : 1 / (9 / 10 * (9 / 10 * Real.sqrt 2)) < 1 := by
      rw [div_lt_one (by positivity)]
      exact hgt
    show dtcC3.gainReduction + dtcC3.gainSmoothingCoeff *
      (1 / (9 / 10 * (9 / 10 * Real.sqrt 2)) - dtcC3.gainReduction) < 1
    simp only [dtcC3]
    linarith
  · rw [stepFrame_gainReduction_eq, frameMixL_C3B, frameMixR_C3B]
    have hpos : (0 : ℝ) < 13 / 20 * Real.sqrt 2 := by positivity
    rw [peakOf_self _ hpos.le]
    have hdtc : algC3B.dtc = dtcC3 := rfl
    rw [hdtc]
    have henv : envelopeFollow dtcC3.envelope dtcC3.envelopeAttack
        dtcC3.envelopeRelease (13 / 20 * Real.sqrt 2) =
        9 / 10 * (13 / 20 * Real.sqrt 2) := by
      show envelopeFollow 0 (9/10) (1/2) (13 / 20 * Real.sqrt 2) = _
      exact envelopeFollow_from_zero _ _ _ hpos
    rw [henv]
    have hle : 9 / 10 * (13 / 20 * Real.sqrt 2) ≤ 1 := by nlinarith
    rw [targetGainOf_of_le _ hle]
    show dtcC3.gainReduction + dtcC3.gainSmoothingCoeff *
      (1 - dtcC3.gainReduction) = 1
    simp only [dtcC3]
    norm_num

/-- The single channel of the saturation experiment: input √2,
feedback 0, centre pan, so the channel mixes `√2 · (√2/2) = 1` into
each side. -/
lemma channelFrame_vC5 :
    channelFrame vC5 busC5 4 0 0 (1/2) (1/2) ChannelState.init =
      ⟨⟨0, 0, Real.sqrt 2, Real.sqrt 2, Real.sqrt 2⟩, 0, 0, Real.sqrt 2, 0,
        Real.sqrt 2 / 2, Real.sqrt 2 / 2⟩ := by
  norm_num [channelFrame, dcBlock, ChannelState.init, vC5, busC5,
    equalPowerPan_zero, kParamsPerChannel, kChParamInput, kChParamFeedback,
    kChParamFeedbackCV, kChParamFeedbackCVDepth, kChParamPan, kChParamPanCV,
    kChParamPanCVDepth, List.getD]

/-- The master-scaled limiter input of the saturation experiment:
`1 · 0.9 = 0.9`. -/
lemma frameMixL_C5 : frameMixL algC5 busC5 4 0 = 9 / 10 := by
  have h2 : Real.sqrt 2 * Real.sqrt 2 = 2 := Real.mul_self_sqrt (by norm_num)
  simp only [frameMixL, algC5, dtcC5, channelLoop, channelFrame_vC5]
  norm_num [vC5, kParamsPerChannel, kGlobalParamMasterLevel, List.getD]
  linear_combination (1 / 2 : ℝ) * h2

/-- The right channel coincides. -/
lemma frameMixR_C5 : frameMixR algC5 busC5 4 0 = 9 / 10 := by
  have h2 : Real.sqrt 2 * Real.sqrt 2 = 2 := Real.mul_self_sqrt (by norm_num)
  simp only [frameMixR, algC5, dtcC5, channelLoop, channelFrame_vC5]
  norm_num [vC5, kParamsPerChannel, kGlobalParamMasterLevel, List.getD]
  linear_combination (1 / 2 : ℝ) * h2

/-- Counterexample to claim C5 as stated: feedback 0, master level
100 %, Hard saturation, lookahead equal to the buffer capacity (its
maximum, reachable at 20 ms / 96 kHz), input √2 so the master-scaled
mix is 0.9 — below the threshold, so no gain reduction occurs
(`gainReduction` stays exactly 1) and the delayed sample equals the
current mix 0.9.  Yet the emitted output is
`saturateHard(0.9 · 1) = 0.85`: saturation is applied even though no
limiting is occurring, so the output is neither the panned, delayed
mix 0.9 nor any un-saturated passthrough value. -/
theorem C5_counterexample :
    (stepFrame algC5 busC5 4 0).1.dtc.gainReduction = 1 ∧
    (stepFrame algC5 busC5 4 0).1.lookaheadBuffer 0 = 9 / 10 ∧
    (stepFrame algC5 busC5 4 0).2 48 = 17 / 20 ∧
    (17 / 20 : ℝ) ≠ 9 / 10 ∧ (17 / 20 : ℝ) ≠ 1 := by
  have hgr : (stepFrame algC5 busC5 4 0).1.dtc.gainReduction = 1 := by
    rw [stepFrame_gainReduction_eq, frameMixL_C5, frameMixR_C5,
      peakOf_self _ (by norm_num : (0:ℝ) ≤ 9 / 10)]
    have hdtc : algC5.dtc = dtcC5 := rfl
    rw [hdtc]
    have henv : envelopeFollow dtcC5.envelope dtcC5.envelopeAttack
        dtcC5.envelopeRelease (9 / 10) = 1 / 2 * (9 / 10) := by
      show envelopeFollow 0 (1/2) (1/2) (9 / 10) = _
      exact envelopeFollow_from_zero _ _ _ (by norm_num)
    rw [henv, targetGainOf_of_le _ (by norm_num)]
    show dtcC5.gainReduction + dtcC5.gainSmoothingCoeff *
      (1 - dtcC5.gainReduction) = 1
    simp only [dtcC5]
    norm_num
  have hbuf : (stepFrame algC5 busC5 4 0).1.lookaheadBuffer 0 = 9 / 10 := by
    rw [stepFrame_lookaheadBuffer_eq]
    have hw : algC5.dtc.writeIndex = 0 := rfl
    rw [hw]
    rw [show (0 : ℕ) * 2 = 0 from rfl]
    rw [Function.update_noteq (show (0 : ℕ) ≠ 0 + 1 by norm_num),
      Function.update_same]
    exact frameMixL_C5
  refine ⟨hgr, hbuf, ?_, by norm_num, by norm_num⟩
  have hmode : ¬ algC5.v (algC5.numInputs * kParamsPerChannel +
      kGlobalParamOutputMode) = 0 := by
    norm_num [algC5, vC5, kParamsPerChannel, kGlobalParamOutputMode, List.getD]
  rw [stepFrame_out_replace algC5 busC5 4 0 hmode]
  have hL : (algC5.v (algC5.numInputs * kParamsPerChannel +
      kGlobalParamOutputL) - 1).toNat * 4 + 0 = 48 := rfl
  have hR : (algC5.v (algC5.numInputs * kParamsPerChannel +
      kGlobalParamOutputR) - 1).toNat * 4 + 0 = 52 := rfl
  rw [hL, hR, Function.update_noteq (show (48 : ℕ) ≠ 52 by norm_num),
    Function.update_same]
  have hri : readIndexCalc algC5.dtc.writeIndex algC5.dtc.bufferSize
      algC5.dtc.lookaheadSamples = 0 := by
    show readIndexCalc 0 1920 1920 = 0
    norm_num [readIndexCalc]
  rw [hri, show (0 : ℕ) * 2 = 0 from rfl, hbuf, hgr]
  have hsat : algC5.v (algC5.numInputs * kParamsPerChannel +
      kGlobalParamSaturation) = 2 := rfl
  rw [hsat]
  norm_num [saturate, saturateHard, kSaturationSoft, kSaturationTube,
    kSaturationHard]

end Seymour
